import Mathlib

/-!
# Verification of the ralph-go workflow orchestration core

This file gives a shallow embedding, in Lean 4, of the workflow
orchestration and resume engine of the `ralph-go` repository
(`loop.go`, `state.go`, `steps.go`, `claude.go`, `config.go` and the
Linear manager mode), and proves properties of that embedding.

Modelling conventions:
* Go `int` values are modelled as `Int` (the programs under study never
  overflow 64-bit integers on the inputs considered).
* Go strings are modelled as `List Char`; `strings.Contains`,
  `strings.TrimSpace`, `strings.SplitN(s, "=", 2)` and `strconv.Atoi`
  are re-implemented faithfully below.
* File-system and subprocess effects are modelled by explicit state
  passing and by oracle functions (one oracle value per external call,
  indexed by the number of calls made so far).  Unbounded `for` loops
  are modelled with an explicit fuel argument; `none` marks
  fuel exhaustion (divergence) and never occurs in the runs studied.
-/

namespace Ralph

/-! ## String helpers (Go `strings` / `strconv` semantics) -/

/-- Go `strings.Contains(s, sub)` on character lists: `sub` occurs as a
contiguous substring of `s` (the empty string is contained in every
string, as in Go). -/
def goContains (sub : List Char) : List Char → Bool
  | [] => sub.isEmpty
  | c :: t => sub.isPrefixOf (c :: t) || goContains sub t

/-- Characters treated as white space by Go's `strings.TrimSpace`
(restricted to the ASCII space characters that can occur in the
checkpoint files studied here). -/
def goIsSpace (c : Char) : Bool :=
  c = ' ' || c = '\t' || c = '\n' || c = '\r'

/-- Go `strings.TrimSpace`: drop white space from both ends. -/
def goTrimSpace (l : List Char) : List Char :=
  ((l.dropWhile goIsSpace).reverse.dropWhile goIsSpace).reverse

/-- Go `strings.SplitN(s, "=", 2)`: split at the first `'='`.  Returns
`none` when no `'='` occurs (the Go call then yields a 1-element slice,
which `loadState` skips). -/
def goSplitEq (l : List Char) : Option (List Char × List Char) :=
  match l.span (fun c => c ≠ '=') with
  | (_, []) => none
  | (pre, _ :: post) => some (pre, post)

/-- Numeric value of an ASCII digit character. -/
def digitVal (c : Char) : Nat := c.toNat - 48

/-- ASCII digit character of a digit value. -/
def digitChar' (d : Nat) : Char := Char.ofNat (48 + d)

/-- Decimal rendering of a natural number, as produced by Go's
`fmt.Fprintf` with verb `%d`. -/
def natChars (n : Nat) : List Char :=
  if n = 0 then ['0'] else ((Nat.digits 10 n).reverse).map digitChar'

/-- Decimal rendering of an integer (`%d`). -/
def intChars (n : Int) : List Char :=
  if n < 0 then '-' :: natChars n.natAbs else natChars n.toNat

/-- Fold a list of ASCII digit characters into the number they denote. -/
def digitsVal (l : List Char) : Nat :=
  l.foldl (fun a c => a * 10 + digitVal c) 0

/-- The digit part of `strconv.Atoi`: one or more ASCII digits, else a
parse error, which `loadState` turns into `0` (the error return of
`Atoi` is discarded there, so the zero value survives). -/
def goAtoiDigits (ds : List Char) : Int :=
  if ds ≠ [] && ds.all (fun c => c.isDigit) then (digitsVal ds : Int) else 0

/-- Go `strconv.Atoi` with the error convention used by `loadState`
(every parse error yields `0`): an optional sign followed by one or
more ASCII digits.  Overflow is not modelled; the values in the
checkpoint files studied are far below the `int64` bounds. -/
def goAtoi (l : List Char) : Int :=
  match l with
  | [] => 0
  | c :: t =>
    if c = '-' then - goAtoiDigits t
    else if c = '+' then goAtoiDigits t
    else goAtoiDigits (c :: t)

/-! ## `claude.go`: sentinel-marker extraction

`runClaude` (claude.go lines 177–179) derives the two domain signals by
literal substring search over the accumulated worker output. -/

/-- The literal blocked marker. -/
def blockedMarker : List Char := "<promise>BLOCKED</promise>".data

/-- The literal complete marker. -/
def completeMarker : List Char := "<promise>COMPLETE</promise>".data

/-- The flags of a `ClaudeResult` (claude.go lines 14–19; the raw
output text is kept abstract). -/
structure CResult where
  success : Bool
  blocked : Bool
  complete : Bool
  deriving Repr, DecidableEq

/-- `claude.go` lines 157–181: on a clean exit (`err == nil`) the
result has `Success = true` and its two signal flags are computed by
substring search for the sentinel markers in the output text. -/
def resultFromOutput (out : List Char) : CResult :=
  { success := true
    blocked := goContains blockedMarker out
    complete := goContains completeMarker out }

/-! ## `state.go`: the checkpoint store

`State` is the persisted checkpoint record.  `saveState` writes four
`key=value` lines; `loadState` scans lines, skipping blanks and lines
without `'='`, and assigns fields by key (with `last_completed_step`
kept as a legacy alias of `last_completed_workflow`). -/

/-- The checkpoint record (`state.go` lines 12–17). -/
structure State where
  iteration : Int
  maxIterations : Int
  currentStep : Int
  lastCompletedWorkflow : Int
  deriving Repr, DecidableEq

/-- `saveState` (`state.go` lines 68–87): the lines written to
`.ralph/ralph-state.txt`, in order. -/
def saveStateLines (st : State) : List (List Char) :=
  [ "iteration=".data ++ intChars st.iteration
  , "max_iterations=".data ++ intChars st.maxIterations
  , "current_step=".data ++ intChars st.currentStep
  , "last_completed_workflow=".data ++ intChars st.lastCompletedWorkflow ]

/-- One step of `loadState`'s scanner loop: process one line against the
state accumulated so far (`state.go` lines 32–59). -/
def loadStateLine (st : State) (raw : List Char) : State :=
  let line := goTrimSpace raw
  if line = [] then st
  else
    match goSplitEq line with
    | none => st
    | some (k, v) =>
      let key := goTrimSpace k
      let value := goTrimSpace v
      if key = "iteration".data then { st with iteration := goAtoi value }
      else if key = "max_iterations".data then { st with maxIterations := goAtoi value }
      else if key = "current_step".data then { st with currentStep := goAtoi value }
      else if key = "last_completed_workflow".data then
        { st with lastCompletedWorkflow := goAtoi value }
      else if key = "last_completed_step".data then
        { st with lastCompletedWorkflow := goAtoi value }
      else st

/-- `loadState` (`state.go` lines 19–66) applied to the lines of an
existing state file: fields start at the zero value and are overwritten
as recognised keys are scanned. -/
def loadStateLines (lines : List (List Char)) : State :=
  lines.foldl loadStateLine ⟨0, 0, 0, 0⟩

/-- The resume step computed by `detectResumeWithPrompt`
(`state.go` lines 141–156): 3 = task check after Workflow 2,
2 = Workflow 2, 1 = start of Workflow 1. -/
def resumeStepOf (st : State) : Int :=
  if st.lastCompletedWorkflow = 2 then 3
  else if st.lastCompletedWorkflow = 1 then 2
  else 1

/-- `detectResumeWithPrompt` (`state.go` lines 111–188), given the
already-loaded state (`none` when no state file exists), whether the
run is interactive, and the operator's answer in the interactive case
(`declined = true` models an explicit `n`/`N` response).  Returns
`none` to start fresh, or `some (state, resumeStep)`; the resume
iteration reported by the function is always `state.iteration`. -/
def detectResumeCore (state? : Option State) (declined : Bool) :
    Option (State × Int) :=
  match state? with
  | none => none
  | some st =>
    if st.iteration = 0 || st.maxIterations = 0 then none
    else if st.iteration > st.maxIterations then none
    else if declined then none
    else some (st, resumeStepOf st)

/-! ## `config.go` -/

/-- `MaxRetries` (`config.go` line 21). -/
def MaxRetries : Nat := 3

/-! ## `steps.go`: `executeStepWithRetry`

The worker (`runClaude`) is abstracted as an oracle giving, for the
`k`-th invocation, either a successful result or a failure carrying the
result pointer (possibly nil) and the error message.  The retry wrapper
is translated line by line from `steps.go` lines 17–54. -/

/-- Outcome of one `runClaude` invocation, as seen by the caller:
`ok r` is a nil error with result `r`; `fail res msg` is a non-nil
error `msg` together with the (possibly nil) result pointer. -/
inductive WorkerRet where
  | ok (r : CResult)
  | fail (res : Option CResult) (msg : List Char)
  deriving Repr, DecidableEq

/-- `steps.go` line 35: an error is treated as a timeout when its text
contains `"timeout"` or `"Request timeout"`. -/
def isTimeoutMsg (msg : List Char) : Bool :=
  goContains "timeout".data msg || goContains "Request timeout".data msg

/-- Value returned by `executeStepWithRetry`: the `(result, error)`
pair, with `none` for a nil pointer / nil error. -/
structure RetryRet where
  res : Option CResult
  err : Option (List Char)
  deriving Repr, DecidableEq

/-- The retry loop of `executeStepWithRetry` starting at attempt number
`attempt` with `rem = MaxRetries - attempt` loop tests remaining.
Returns the number of worker invocations performed together with the
function's return value.  The `rem = 0` case is the loop falling
through, `steps.go` line 53. -/
def retryFrom (worker : Nat → WorkerRet) : Nat → Nat → Nat × RetryRet
  | _, 0 => (0, ⟨none, some "failed after 3 attempts".data⟩)
  | attempt, rem + 1 =>
    match worker attempt with
    | .fail res msg =>
      if isTimeoutMsg msg then
        if MaxRetries - 1 ≤ attempt then (1, ⟨res, some msg⟩)
        else
          let (c, out) := retryFrom worker (attempt + 1) rem
          (c + 1, out)
      else (1, ⟨res, some msg⟩)
    | .ok r =>
      if r.success then (1, ⟨some r, none⟩)
      else
        let (c, out) := retryFrom worker (attempt + 1) rem
        (c + 1, out)

/-- `executeStepWithRetry` (`steps.go` lines 17–54): run the retry loop
from attempt 0.  The first component counts worker invocations. -/
def executeStepWithRetryM (worker : Nat → WorkerRet) : Nat × RetryRet :=
  retryFrom worker 0 MaxRetries

/-! ## `loop.go`: the workflow controller

`executeRalphWorkflow` is modelled as a state machine over `Mach`.
Each call to an external unit (one `executeStepWithRetry`-wrapped
worker invocation) consumes the next value of the `unit` oracle, each
`countIncompletePRDTasks` read consumes the next value of the `count`
oracle, and every observable action (unit invocation, checkpoint save,
checkpoint clear, progress callback) is appended to an event trace. -/

/-- The seven worker units reachable from `executeRalphWorkflow`
(`steps.go` lines 56–131). -/
inductive UnitKind where
  | plan | implement | guardrail | cleanup | commit | refactor | selfImprove
  deriving Repr, DecidableEq

/-- Observable events of a controller run. -/
inductive Ev where
  | unit (k : UnitKind) (iteration : Int)
  | save (st : State)
  | clear
  | callback (iteration : Int)
  deriving Repr, DecidableEq

/-- Oracles abstracting the controller's environment.  `unit k` is the
outcome of the `k`-th unit execution (`none`: `executeStepWithRetry`
returned a non-nil error); `count k` is the value of the `k`-th
`countIncompletePRDTasks` read (`0` on a read error, matching the
ignored error return in `loop.go` lines 118/166). -/
structure LoopEnv where
  unit : Nat → Option CResult
  count : Nat → Nat
  guardrails : Bool
  hasCallback : Bool
  prdExists : Bool

/-- Machine state: oracle cursors, the on-disk checkpoint file
(`none` = absent), and the event trace. -/
structure Mach where
  uIdx : Nat
  cIdx : Nat
  file : Option State
  trace : List Ev
  deriving Repr, DecidableEq

/-- Execute one unit: consume the next `unit` oracle value and record
the invocation. -/
def callUnit (env : LoopEnv) (k : UnitKind) (i : Int) (m : Mach) :
    Option CResult × Mach :=
  (env.unit m.uIdx, { m with uIdx := m.uIdx + 1, trace := m.trace ++ [.unit k i] })

/-- `saveState`: overwrite the checkpoint file. -/
def saveM (st : State) (m : Mach) : Mach :=
  { m with file := some st, trace := m.trace ++ [.save st] }

/-- `clearState`: remove the checkpoint file. -/
def clearM (m : Mach) : Mach :=
  { m with file := none, trace := m.trace ++ [.clear] }

/-- `countIncompletePRDTasks`: consume the next `count` oracle value. -/
def readCount (env : LoopEnv) (m : Mach) : Nat × Mach :=
  (env.count m.cIdx, { m with cIdx := m.cIdx + 1 })

/-- `workflow1PlanAndImplement` (`steps.go` lines 135–178): planning,
then (unless the plan signalled blocked or complete) implementation,
conditional guardrail verification, cleanup and commit.  `none` models
a non-nil error return. -/
def workflow1M (env : LoopEnv) (i : Int) (m : Mach) : Option CResult × Mach :=
  match callUnit env .plan i m with
  | (none, m) => (none, m)
  | (some r, m) =>
    if r.blocked || r.complete then (some r, m)
    else
      match callUnit env .implement i m with
      | (none, m) => (none, m)
      | (some ri, m) =>
        if ri.blocked then (some { r with blocked := true }, m)
        else
          match
            (if env.guardrails then
              match callUnit env .guardrail i m with
              | (none, m) => (none, m)
              | (some _, m) => (some (), m)
            else (some (), m) : Option Unit × Mach)
          with
          | (none, m) => (none, m)
          | (some _, m) =>
            match callUnit env .cleanup i m with
            | (none, m) => (none, m)
            | (some _, m) =>
              match callUnit env .commit i m with
              | (none, m) => (none, m)
              | (some _, m) => (some r, m)

/-- `workflow2CleanupAndReview` (`steps.go` lines 181–195): refactor
then self-improvement; `false` models a non-nil error return. -/
def workflow2M (env : LoopEnv) (i : Int) (m : Mach) : Bool × Mach :=
  match callUnit env .refactor i m with
  | (none, m) => (false, m)
  | (some _, m) =>
    match callUnit env .selfImprove i m with
    | (none, m) => (false, m)
    | (some _, m) => (true, m)

/-- Result of the inner `for {}` loop over Workflow 1
(`loop.go` lines 86–102). -/
inductive W1Out where
  | err | blocked | complete
  deriving Repr, DecidableEq

/-- The inner Workflow 1 loop, with fuel for the unbounded `for {}`. -/
def innerW1 (env : LoopEnv) (i : Int) : Nat → Mach → Option W1Out × Mach
  | 0, m => (none, m)
  | fuel + 1, m =>
    match workflow1M env i m with
    | (none, m) => (some .err, m)
    | (some r, m) =>
      if r.blocked then (some .blocked, m)
      else if r.complete then (some .complete, m)
      else innerW1 env i fuel m

/-- Error classes of `executeRalphWorkflow`'s non-nil error returns. -/
inductive RunErr where
  | requiredFile | wf1 | blockedPlanning | wf2
  deriving Repr, DecidableEq

/-- The outer iteration loop of `executeRalphWorkflow`
(`loop.go` lines 64–181), starting at iteration `i`.  Mirrors the Go
`for i := ...; i <= maxIterations; i++` loop: a `continue` after
Workflow 2 increased the task count executes the `i++` post-statement.
`fuel` bounds the number of loop-body entries (a terminating run needs
at most `maxI` of them). -/
def runFrom (env : LoopEnv) (maxI : Int) (innerFuel : Nat) :
    Nat → Int → Mach → Option (Except RunErr Bool) × Mach
  | 0, i, m =>
    if maxI < i then (some (.ok false), clearM m) else (none, m)
  | fuel + 1, i, m =>
    if maxI < i then (some (.ok false), clearM m)
    else
      let m := saveM ⟨i, maxI, 1, 0⟩ m
      let m := saveM ⟨i, maxI, 1, 0⟩ m
      match innerW1 env i innerFuel m with
      | (none, m) => (none, m)
      | (some .err, m) => (some (.error .wf1), m)
      | (some .blocked, m) => (some (.error .blockedPlanning), m)
      | (some .complete, m) =>
        let m := saveM ⟨i, maxI, 1, 1⟩ m
        let m := saveM ⟨i, maxI, 2, 1⟩ m
        let (b, m) := readCount env m
        match workflow2M env i m with
        | (false, m) => (some (.error .wf2), m)
        | (true, m) =>
          let m := saveM ⟨i, maxI, 2, 2⟩ m
          let m := if env.hasCallback then
              { m with trace := m.trace ++ [.callback i] } else m
          let (a, m) := readCount env m
          if b < a then runFrom env maxI innerFuel fuel (i + 1) m
          else (some (.ok true), clearM m)

/-- `executeRalphWorkflow` (`loop.go` lines 55–182): the required-file
check followed by the main loop from iteration 1.  `file0` is the
checkpoint file contents at entry. -/
def executeRalphWorkflowM (env : LoopEnv) (maxI : Int)
    (innerFuel outerFuel : Nat) (file0 : Option State) :
    Option (Except RunErr Bool) × Mach :=
  if env.prdExists then
    runFrom env maxI innerFuel outerFuel 1 ⟨0, 0, file0, []⟩
  else (some (.error .requiredFile), ⟨0, 0, file0, []⟩)

/-- `countIncompletePRDTasks` (`loop.go` lines 33–48) on given file
contents: split into lines and count those containing `"- [ ]"`. -/
def countIncompletePRDTasksM (content : List Char) : Nat :=
  ((content.splitOn '\n').filter (fun l => goContains "- [ ]".data l)).length

/-- The machine state after one full iteration `i` of the outer loop in
which the plan unit signalled complete on its first run and Workflow 2
succeeded: three units were invoked, two task counts were read, and the
checkpoint was last saved as `⟨i, maxI, 2, 2⟩`. -/
def afterIterM (env : LoopEnv) (maxI i : Int) (m : Mach) : Mach :=
  { uIdx := m.uIdx + 3
    cIdx := m.cIdx + 2
    file := some ⟨i, maxI, 2, 2⟩
    trace := m.trace ++
      [.save ⟨i, maxI, 1, 0⟩, .save ⟨i, maxI, 1, 0⟩, .unit .plan i,
       .save ⟨i, maxI, 1, 1⟩, .save ⟨i, maxI, 2, 1⟩,
       .unit .refactor i, .unit .selfImprove i, .save ⟨i, maxI, 2, 2⟩]
      ++ (if env.hasCallback then [.callback i] else []) }

/-- The unit invocations of a trace, with the iteration number each one
ran under. -/
def unitIterations (trace : List Ev) : List (UnitKind × Int) :=
  trace.filterMap (fun e => match e with
    | .unit k i => some (k, i)
    | _ => none)

/-! ## Resume targets

The code's resume steps (1, 2, 3) name coarse workflow-level entry
points.  `ResumeTarget` also provides the finer `implementStage`
target that the specification's resume rule mentions, so that the
code's decision and the specified decision can be compared. -/

/-- Possible resume entry points. -/
inductive ResumeTarget where
  | workflowAStart | implementStage | workflowB | taskCheck
  deriving Repr, DecidableEq

/-- Meaning of the resume step numbers produced by
`detectResumeWithPrompt` (`state.go` lines 141–163): 1 = start of
Workflow 1, 2 = Workflow 2, 3 = post-Workflow-2 task check. -/
def stepTarget (s : Int) : ResumeTarget :=
  if s = 2 then .workflowB
  else if s = 3 then .taskCheck
  else .workflowAStart

/-- The resume decision exactly as the specification's sentence states
it (for comparison with the code's decision): an existing in-progress
plan artifact selects Workflow A's implement stage; otherwise the
last-completed marker selects Workflow B if Workflow A finished, else
the start of Workflow A. -/
def specResumeTarget (planArtifactExists : Bool) (st : State) : ResumeTarget :=
  if planArtifactExists then .implementStage
  else if st.lastCompletedWorkflow = 1 then .workflowB
  else .workflowAStart

/-! ## Manager mode (`part_002`, `runManagerMode`)

One pass of `runManagerMode`'s main loop over a freshly selected
ticket, recording the sequence of ticket-tracker writes and manager
state-file operations it requests.  Tracker calls whose failures the
Go code only warns about are modelled as succeeding. -/

/-- Ticket workflow states used by `runManagerMode`. -/
inductive TState where
  | todo | inProgress | done
  deriving Repr, DecidableEq

/-- The comments `runManagerMode` posts to the ticket. -/
inductive CommentKind where
  | escalatePRD        -- PRD creation failed (tags the escalation user)
  | branchInfo         -- "Starting work on branch ..." (tags the escalation user)
  | progress (k : Nat) -- per-iteration progress comment
  | escalateError      -- workflow error (tags the escalation user)
  | escalateLimit      -- iteration limit reached (tags the escalation user)
  | prFailWarn         -- work done but PR creation failed (tags the escalation user)
  | success            -- success comment with the PR link
  deriving Repr, DecidableEq

/-- One observable manager-mode write. -/
inductive TW where
  | comment (k : CommentKind)
  | setState (s : TState)
  | saveMgr
  | clearMgr
  deriving Repr, DecidableEq

/-- Oracles for one ticket pass: whether PRD creation succeeded, how
many per-iteration progress comments the workflow run posted, the
workflow run's outcome (`error` = failed/blocked, `ok b` = finished
with completion flag `b`) and whether PR creation succeeded. -/
structure MgrEnv where
  prdOk : Bool
  nProgress : Nat
  runResult : Except Unit Bool
  prOk : Bool

/-- The progress comments posted by the run's progress callback. -/
def progressComments (n : Nat) : List TW :=
  (List.range n).map (fun k => .comment (.progress k))

/-- One fresh-ticket pass of `runManagerMode`'s loop body
(`part_002` lines 1593–1790): branch creation, PRD creation, the
"starting work" comment, the `In Progress` transition, the workflow
run, and outcome reconciliation.  Returns `.error ()` when
`runManagerMode` exits with an error, `.ok ()` when the ticket reached
`Done` and the loop proceeds to the next ticket. -/
def managerTicket (env : MgrEnv) : Except Unit Unit × List TW :=
  if !env.prdOk then
    (.error (), [.comment .escalatePRD, .clearMgr])
  else
    let pre : List TW := [.comment .branchInfo, .saveMgr, .setState .inProgress]
    match env.runResult with
    | .error _ =>
      (.error (), pre ++ progressComments env.nProgress
        ++ [.comment .escalateError, .setState .todo, .clearMgr])
    | .ok false =>
      (.error (), pre ++ progressComments env.nProgress
        ++ [.comment .escalateLimit, .setState .todo, .clearMgr])
    | .ok true =>
      (.ok (), pre ++ progressComments env.nProgress
        ++ (if env.prOk then [] else [.comment .prFailWarn])
        ++ [.comment .success, .setState .done, .clearMgr])

/-- The ticket-tracker state writes contained in a write sequence. -/
def stateWrites (l : List TW) : List TState :=
  l.filterMap (fun w => match w with | .setState s => some s | _ => none)

/-- Whether a write sequence contains a comment that tags the
escalation user about a failure. -/
def hasEscalation (l : List TW) : Bool :=
  l.any (fun w => match w with
    | .comment .escalateError => true
    | .comment .escalateLimit => true
    | .comment .escalatePRD => true
    | _ => false)

/-! ## Ticket ordering (`part_002`, `fetchTodoTickets`)

`fetchTodoTickets` sorts the fetched issues in place with a double
loop that swaps `issues[i]` and `issues[j]` (`j > i`) whenever
`issues[i].Priority > issues[j].Priority`, and `runManagerMode`
selects `tickets[0]`.  Priorities are Linear's numeric encoding
(0 = no priority, 1 = urgent, 2 = high, 3 = medium, 4 = low),
modelled as `Int` (the `float64` values in use are small integers, on
which float comparison agrees with integer comparison). -/

/-- The parts of a Linear issue relevant to ordering and selection. -/
structure Ticket where
  priority : Int
  payload : Nat
  deriving Repr, DecidableEq

/-- Effect of the inner loop of the sort for a fixed outer index:
walking the tail with current front element `x`, swapping whenever the
front's priority exceeds the visited element's.  Returns the final
front element together with the permuted tail. -/
def innerPass (x : Ticket) : List Ticket → Ticket × List Ticket
  | [] => (x, [])
  | y :: t =>
    if y.priority < x.priority then
      let p := innerPass y t
      (p.1, x :: p.2)
    else
      let p := innerPass x t
      (p.1, y :: p.2)

/-- The double-loop exchange sort of `fetchTodoTickets`
(`part_002` lines 255–263): each outer step moves a minimum-priority
element of the remaining suffix to the front. -/
def sortTickets (l : List Ticket) : List Ticket :=
  match l with
  | [] => []
  | x :: t => (innerPass x t).1 :: sortTickets (innerPass x t).2
termination_by l.length
decreasing_by
  have key : ∀ (x : Ticket) (t : List Ticket), (innerPass x t).2.length = t.length := by
    intro x t
    induction t generalizing x with
    | nil => rfl
    | cons y t ih => by_cases h : y.priority < x.priority <;> simp [innerPass, h, ih]
  simp [key]

/-- Ticket selection in `runManagerMode` (`part_002` line 1607): the
first element of the sorted fetch result. -/
def selectTicket (l : List Ticket) : Option Ticket :=
  (sortTickets l).head?

/-! ## Concrete test environments

Closed environments used to evaluate the models on concrete inputs. -/

/-- PRD file contents observed by the `k`-th `countIncompletePRDTasks`
read in the C1 scenario: after the first iteration's Workflow 2 the
file has gained one incomplete task. -/
def prdContentsC1 (k : Nat) : List Char :=
  if k = 0 then "- [x] task one".data else "- [ ] task two".data

/-- C1 scenario: the plan unit signals complete immediately in both
iterations, Workflow 2 succeeds, and the task count rises from 0 to 1
across the first iteration's Workflow 2 (then stays at 1). -/
def envC1 : LoopEnv :=
  { unit := fun k =>
      if k = 0 || k = 3 then some ⟨true, false, true⟩ else some ⟨true, false, false⟩
    count := fun k => countIncompletePRDTasksM (prdContentsC1 k)
    guardrails := false
    hasCallback := false
    prdExists := true }

/-- A worker output containing both sentinel markers. -/
def bothMarkersOut : List Char :=
  "<promise>BLOCKED</promise><promise>COMPLETE</promise>".data

/-- C4 scenario: the first plan unit returns the flags parsed from an
output holding both markers. -/
def envC4 : LoopEnv :=
  { unit := fun k => if k = 0 then some (resultFromOutput bothMarkersOut) else none
    count := fun _ => 0
    guardrails := false
    hasCallback := false
    prdExists := true }

/-- C3 scenario: the first plan unit reports blocked. -/
def envC3 : LoopEnv :=
  { unit := fun k => if k = 0 then some ⟨true, true, false⟩ else none
    count := fun _ => 0
    guardrails := false
    hasCallback := false
    prdExists := true }

/-- A worker stub that always times out (C5). -/
def workerAlwaysTimeout (_ : Nat) : WorkerRet :=
  .fail none "Request timeout after 1800 seconds".data

/-- A worker stub that fails fatally on its first attempt (C6). -/
def workerFatal (_ : Nat) : WorkerRet :=
  .fail none "Claude API authentication error".data

/-! # Theorems -/

/-- Claim C5: for a worker that times out on every attempt,
`executeStepWithRetry` invokes the worker exactly `MaxRetries` (3)
times and then returns a terminal timeout error — never more and never
fewer invocations. -/
theorem retry_timeout_bound (w : Nat → WorkerRet)
    (r0 r1 r2 : Option CResult) (m0 m1 m2 : List Char)
    (h0 : w 0 = .fail r0 m0) (t0 : isTimeoutMsg m0 = true)
    (h1 : w 1 = .fail r1 m1) (t1 : isTimeoutMsg m1 = true)
    (h2 : w 2 = .fail r2 m2) (t2 : isTimeoutMsg m2 = true) :
    executeStepWithRetryM w = (MaxRetries, ⟨r2, some m2⟩)
      ∧ isTimeoutMsg m2 = true := by
  refine ⟨?_, t2⟩
  simp [executeStepWithRetryM, MaxRetries, retryFrom, h0, h1, h2, t0, t1, t2]

/-- Witness for C5: the always-timeout worker stub is invoked exactly
three times and the returned error is the timeout error. -/
theorem retry_timeout_bound_witness :
    executeStepWithRetryM workerAlwaysTimeout
        = (MaxRetries, ⟨none, some "Request timeout after 1800 seconds".data⟩)
      ∧ isTimeoutMsg "Request timeout after 1800 seconds".data = true :=
  retry_timeout_bound workerAlwaysTimeout none none none _ _ _
    rfl (by decide) rfl (by decide) rfl (by decide)

/-- Claim C6: for a worker whose first attempt fails with a non-timeout
(fatal) error, `executeStepWithRetry` returns immediately with the
error and performs no second invocation. -/
theorem retry_fatal_short_circuit (w : Nat → WorkerRet)
    (r0 : Option CResult) (m0 : List Char)
    (h0 : w 0 = .fail r0 m0) (t0 : isTimeoutMsg m0 = false) :
    executeStepWithRetryM w = (1, ⟨r0, some m0⟩) := by
  simp [executeStepWithRetryM, MaxRetries, retryFrom, h0, t0]

/-- Witness for C6: the fatally failing worker stub is invoked exactly
once and its error is returned unchanged. -/
theorem retry_fatal_short_circuit_witness :
    executeStepWithRetryM workerFatal
      = (1, ⟨none, some "Claude API authentication error".data⟩) :=
  retry_fatal_short_circuit workerFatal none _ rfl (by decide)

/-- Claim C7, counterexample: the checkpoint record with iteration −1
fails the claimed validation `0 < iteration ≤ maxIterations`, yet the
resume decision resumes from it (at step 1 of iteration −1) instead of
starting fresh. -/
theorem resume_validation_counterexample :
    ¬ (0 < (-1 : Int))
      ∧ detectResumeCore (some ⟨-1, 10, 1, 0⟩) false = some (⟨-1, 10, 1, 0⟩, 1) := by
  constructor
  · decide
  · rfl

/-- Claim C7, amended: a record is rejected (warning logged, fresh
start) exactly when its iteration is 0, its max-iterations is 0, or
its iteration exceeds its max-iterations; any other record — including
one with a negative iteration — is resumed at the recorded iteration. -/
theorem resume_validation_amended :
    (∀ (st : State) (declined : Bool),
      st.iteration = 0 ∨ st.maxIterations = 0 ∨ st.maxIterations < st.iteration →
      detectResumeCore (some st) declined = none)
    ∧ (∀ st : State,
      st.iteration ≠ 0 → st.maxIterations ≠ 0 → st.iteration ≤ st.maxIterations →
      detectResumeCore (some st) false = some (st, resumeStepOf st)) := by
  constructor
  · intro st declined h
    rcases h with h | h | h <;> simp [detectResumeCore, h]
  · intro st h1 h2 h3
    simp [detectResumeCore, h1, h2]
    omega

/-- Witness for the amended C7: the corrupt record with iteration 0 is
rejected, and the intact record `⟨2, 3, 1, 0⟩` is resumed. -/
theorem resume_validation_amended_witness :
    detectResumeCore (some ⟨0, 3, 1, 0⟩) false = none
      ∧ detectResumeCore (some ⟨2, 3, 1, 0⟩) false = some (⟨2, 3, 1, 0⟩, 1) :=
  ⟨resume_validation_amended.1 ⟨0, 3, 1, 0⟩ false (Or.inl rfl),
   resume_validation_amended.2 ⟨2, 3, 1, 0⟩ (by decide) (by decide) (by decide)⟩

/-- Claim C2, counterexample: for the valid checkpoint `⟨2, 5, 1, 0⟩`
(crashed inside Workflow 1 of iteration 2) with an in-progress plan
artifact on disk, the specification's rule resumes at Workflow A's
implement stage, but the code's resume decision — which never consults
any plan artifact — resumes at the start of Workflow 1 (step 1),
re-entering the already-completed plan unit. -/
theorem resume_point_counterexample :
    detectResumeCore (some ⟨2, 5, 1, 0⟩) false = some (⟨2, 5, 1, 0⟩, 1)
      ∧ stepTarget 1 = .workflowAStart
      ∧ specResumeTarget true ⟨2, 5, 1, 0⟩ = .implementStage
      ∧ ResumeTarget.workflowAStart ≠ ResumeTarget.implementStage := by
  refine ⟨rfl, rfl, rfl, ?_⟩
  decide

/-- Claim C2, amended: for every valid persisted checkpoint the resume
decision stays within the recorded iteration, but the resume step is
chosen from the last-completed-workflow marker alone (no on-disk plan
artifact is consulted and no implement-stage entry point exists):
marker 1 resumes at Workflow 2, marker 2 resumes at the post-Workflow-2
task check, and any other marker value resumes at the start of
Workflow 1. -/
theorem resume_point_amended (st : State)
    (h1 : st.iteration ≠ 0) (h2 : st.maxIterations ≠ 0)
    (h3 : st.iteration ≤ st.maxIterations) :
    detectResumeCore (some st) false = some (st, resumeStepOf st)
      ∧ (st.lastCompletedWorkflow = 1 →
          stepTarget (resumeStepOf st) = .workflowB)
      ∧ (st.lastCompletedWorkflow = 2 →
          stepTarget (resumeStepOf st) = .taskCheck)
      ∧ (st.lastCompletedWorkflow ≠ 1 → st.lastCompletedWorkflow ≠ 2 →
          stepTarget (resumeStepOf st) = .workflowAStart) := by
  refine ⟨?_, ?_, ?_, ?_⟩
  · simp [detectResumeCore, h1, h2]
    omega
  · intro h
    simp [resumeStepOf, stepTarget, h]
  · intro h
    simp [resumeStepOf, stepTarget, h]
  · intro ha hb
    simp [resumeStepOf, stepTarget, ha, hb]

/-- Witness for the amended C2: the checkpoint `⟨2, 5, 1, 1⟩` (Workflow
1 of iteration 2 finished) resumes at iteration 2, Workflow 2. -/
theorem resume_point_amended_witness :
    detectResumeCore (some ⟨2, 5, 1, 1⟩) false = some (⟨2, 5, 1, 1⟩, resumeStepOf ⟨2, 5, 1, 1⟩)
      ∧ stepTarget (resumeStepOf ⟨2, 5, 1, 1⟩) = .workflowB :=
  ⟨(resume_point_amended ⟨2, 5, 1, 1⟩ (by decide) (by decide) (by decide)).1,
   (resume_point_amended ⟨2, 5, 1, 1⟩ (by decide) (by decide) (by decide)).2.1 rfl⟩

/-- Claim C1, counterexample: in the concrete run `envC1` (3 iterations
allowed; the plan unit completes immediately each time; iteration 1's
Workflow 2 raises the incomplete-task count from 0 to 1, i.e. k = 1 >
0), the controller re-enters Workflow 1 at iteration 2, not under the
same iteration number 1 — the unit trace is plan@1, refactor@1,
selfImprove@1, plan@2, … .  And when k = 0 (iteration 2), the outer
counter does not advance to iteration 3: the run terminates
successfully with the checkpoint cleared. -/
theorem convergence_loop_counterexample :
    executeRalphWorkflowM envC1 3 2 3 none
      = (some (.ok true),
         ⟨6, 4, none,
          [.save ⟨1, 3, 1, 0⟩, .save ⟨1, 3, 1, 0⟩, .unit .plan 1,
           .save ⟨1, 3, 1, 1⟩, .save ⟨1, 3, 2, 1⟩,
           .unit .refactor 1, .unit .selfImprove 1, .save ⟨1, 3, 2, 2⟩,
           .save ⟨2, 3, 1, 0⟩, .save ⟨2, 3, 1, 0⟩, .unit .plan 2,
           .save ⟨2, 3, 1, 1⟩, .save ⟨2, 3, 2, 1⟩,
           .unit .refactor 2, .unit .selfImprove 2, .save ⟨2, 3, 2, 2⟩,
           .clear]⟩)
      ∧ unitIterations (executeRalphWorkflowM envC1 3 2 3 none).2.trace
        = [(.plan, 1), (.refactor, 1), (.selfImprove, 1),
           (.plan, 2), (.refactor, 2), (.selfImprove, 2)] :=
  ⟨rfl, rfl⟩

/-- Claim C1, amended: when the incomplete-task count measured after
Workflow 2 exceeds the count measured before it (k > 0), the
controller re-enters Workflow 1 at the *next* iteration number — the
`continue` statement executes the loop's `i++` post-statement — and
when k = 0 the outer counter does not advance: the run terminates
successfully (PRD considered complete) with the checkpoint cleared. -/
theorem convergence_loop_amended (env : LoopEnv) (maxI : Int) (iF oF : Nat)
    (i : Int) (m : Mach) (rp r1 r2 : CResult)
    (hi : i ≤ maxI)
    (hp : env.unit m.uIdx = some rp)
    (hpb : rp.blocked = false) (hpc : rp.complete = true)
    (h1 : env.unit (m.uIdx + 1) = some r1)
    (h2 : env.unit (m.uIdx + 2) = some r2) :
    (env.count m.cIdx < env.count (m.cIdx + 1) →
      runFrom env maxI (iF + 1) (oF + 1) i m
        = runFrom env maxI (iF + 1) oF (i + 1) (afterIterM env maxI i m))
    ∧ (env.count (m.cIdx + 1) ≤ env.count m.cIdx →
      runFrom env maxI (iF + 1) (oF + 1) i m
        = (some (.ok true), clearM (afterIterM env maxI i m))) := by
  constructor
  · intro hlt
    by_cases hcb : env.hasCallback = true <;>
      simp [runFrom, if_neg (not_lt.mpr hi), saveM, innerW1, workflow1M, callUnit,
        readCount, workflow2M, afterIterM, hp, hpb, hpc, h1, h2, hlt, hcb]
  · intro hle
    by_cases hcb : env.hasCallback = true <;>
      simp [runFrom, if_neg (not_lt.mpr hi), saveM, innerW1, workflow1M, callUnit,
        readCount, workflow2M, clearM, afterIterM, hp, hpb, hpc, h1, h2,
        if_neg (not_lt.mpr hle), hcb]

/-- Witness for the amended C1: in the `envC1` run, iteration 1 (where
the count rises 0 → 1) steps to iteration 2. -/
theorem convergence_loop_amended_witness :
    runFrom envC1 3 2 3 1 ⟨0, 0, none, []⟩
      = runFrom envC1 3 2 2 2 (afterIterM envC1 3 1 ⟨0, 0, none, []⟩) :=
  (convergence_loop_amended envC1 3 1 2 1 ⟨0, 0, none, []⟩
      ⟨true, false, true⟩ ⟨true, false, false⟩ ⟨true, false, false⟩
      (by decide) rfl rfl rfl rfl rfl).1 (by decide)

/-- Claim C3: whenever a plan unit or an implement unit reports the
blocked signal, the controller run terminates with a blocked error and
no subsequent unit runs (no guardrail, cleanup, commit, or Workflow 2
unit appears after it in the trace), and the on-disk checkpoint is
left intact (it still holds the iteration-start record).  The third
conjunct covers a failed (error) plan outcome: the run also terminates
with the checkpoint intact. -/
theorem blocked_halts :
    (∀ (env : LoopEnv) (maxI : Int) (iF oF : Nat) (i : Int) (m : Mach) (r : CResult),
      i ≤ maxI → env.unit m.uIdx = some r → r.blocked = true →
      runFrom env maxI (iF + 1) (oF + 1) i m
        = (some (.error .blockedPlanning),
           ⟨m.uIdx + 1, m.cIdx, some ⟨i, maxI, 1, 0⟩,
            m.trace ++ [.save ⟨i, maxI, 1, 0⟩, .save ⟨i, maxI, 1, 0⟩,
              .unit .plan i]⟩))
    ∧ (∀ (env : LoopEnv) (maxI : Int) (iF oF : Nat) (i : Int) (m : Mach)
        (rp ri : CResult),
      i ≤ maxI → env.unit m.uIdx = some rp →
      rp.blocked = false → rp.complete = false →
      env.unit (m.uIdx + 1) = some ri → ri.blocked = true →
      runFrom env maxI (iF + 1) (oF + 1) i m
        = (some (.error .blockedPlanning),
           ⟨m.uIdx + 2, m.cIdx, some ⟨i, maxI, 1, 0⟩,
            m.trace ++ [.save ⟨i, maxI, 1, 0⟩, .save ⟨i, maxI, 1, 0⟩,
              .unit .plan i, .unit .implement i]⟩))
    ∧ (∀ (env : LoopEnv) (maxI : Int) (iF oF : Nat) (i : Int) (m : Mach),
      i ≤ maxI → env.unit m.uIdx = none →
      runFrom env maxI (iF + 1) (oF + 1) i m
        = (some (.error .wf1),
           ⟨m.uIdx + 1, m.cIdx, some ⟨i, maxI, 1, 0⟩,
            m.trace ++ [.save ⟨i, maxI, 1, 0⟩, .save ⟨i, maxI, 1, 0⟩,
              .unit .plan i]⟩)) := by
  refine ⟨?_, ?_, ?_⟩
  · intro env maxI iF oF i m r hi hu hb
    simp [runFrom, if_neg (not_lt.mpr hi), saveM, innerW1, workflow1M, callUnit,
      hu, hb]
  · intro env maxI iF oF i m rp ri hi hp hpb hpc hri hrb
    simp [runFrom, if_neg (not_lt.mpr hi), saveM, innerW1, workflow1M, callUnit,
      hp, hpb, hpc, hri, hrb]
  · intro env maxI iF oF i m hi hu
    simp [runFrom, if_neg (not_lt.mpr hi), saveM, innerW1, workflow1M, callUnit, hu]

/-- Witness for C3: in the `envC3` run (plan blocked at once) the
controller stops after the plan unit with the checkpoint still on
disk. -/
theorem blocked_halts_witness :
    runFrom envC3 3 2 3 1 ⟨0, 0, none, []⟩
      = (some (.error .blockedPlanning),
         ⟨1, 0, some ⟨1, 3, 1, 0⟩,
          [.save ⟨1, 3, 1, 0⟩, .save ⟨1, 3, 1, 0⟩, .unit .plan 1]⟩) :=
  blocked_halts.1 envC3 3 1 2 1 ⟨0, 0, none, []⟩ ⟨true, true, false⟩
    (by decide) rfl rfl

/-- Claim C4, counterexample: for an output containing both the
blocked and the complete marker, both flags are extracted, but the
controller treats the run as blocked, not completed: `loop.go` tests
`result.Blocked` before `result.Complete`, so the run ends with the
blocked error rather than the completed result. -/
theorem marker_priority_counterexample :
    resultFromOutput bothMarkersOut = ⟨true, true, true⟩
      ∧ (executeRalphWorkflowM envC4 3 2 3 none).1
          = some (.error .blockedPlanning) :=
  ⟨rfl, rfl⟩

/-- Claim C4, amended: for every worker output in which both literal
markers occur, the blocked signal takes priority over the complete
signal in the controller's decision: the run is treated as blocked. -/
theorem marker_priority_amended (env : LoopEnv) (maxI : Int) (iF oF : Nat)
    (f0 : Option State) (out : List Char)
    (hprd : env.prdExists = true) (hmax : 1 ≤ maxI)
    (hb : goContains blockedMarker out = true)
    (hc : goContains completeMarker out = true)
    (hu : env.unit 0 = some (resultFromOutput out)) :
    (executeRalphWorkflowM env maxI (iF + 1) (oF + 1) f0).1
      = some (.error .blockedPlanning) := by
  have _ := hc
  simp [executeRalphWorkflowM, hprd, runFrom, if_neg (not_lt.mpr hmax), saveM,
    innerW1, workflow1M, callUnit, resultFromOutput, hu, hb]

/-- Witness for the amended C4: the `envC4` run (both markers in the
plan output) ends blocked. -/
theorem marker_priority_amended_witness :
    (executeRalphWorkflowM envC4 3 2 3 none).1 = some (.error .blockedPlanning) :=
  marker_priority_amended envC4 3 1 2 none bothMarkersOut rfl (by decide)
    (by decide) (by decide) rfl

/-! ### Decimal rendering / parsing round trip -/

theorem digitVal_digitChar : ∀ d : Nat, d < 10 → digitVal (digitChar' d) = d := by
  decide

theorem isDigit_digitChar : ∀ d : Nat, d < 10 → (digitChar' d).isDigit = true := by
  decide

theorem not_space_digitChar : ∀ d : Nat, d < 10 → goIsSpace (digitChar' d) = false := by
  decide

theorem ne_minus_digitChar : ∀ d : Nat, d < 10 → digitChar' d ≠ '-' := by
  decide

theorem ne_plus_digitChar : ∀ d : Nat, d < 10 → digitChar' d ≠ '+' := by
  decide

theorem ne_eqsign_digitChar : ∀ d : Nat, d < 10 → digitChar' d ≠ '=' := by
  decide

theorem natChars_ne_nil (n : Nat) : natChars n ≠ [] := by
  unfold natChars
  split
  · simp
  · simp_all [Nat.digits_ne_nil_iff_ne_zero]

theorem mem_natChars (n : Nat) (c : Char) (hc : c ∈ natChars n) :
    ∃ d, d < 10 ∧ c = digitChar' d := by
  unfold natChars at hc
  split at hc
  · simp at hc
    exact ⟨0, by norm_num, by rw [hc]; rfl⟩
  · simp only [List.mem_map, List.mem_reverse] at hc
    obtain ⟨d, hd, rfl⟩ := hc
    exact ⟨d, Nat.digits_lt_base (by norm_num) hd, rfl⟩

theorem foldl_digitChars (l : List Nat) (h : ∀ d ∈ l, d < 10) (a : Nat) :
    List.foldl (fun acc c => acc * 10 + digitVal c) a (l.reverse.map digitChar')
      = a * 10 ^ l.length + Nat.ofDigits 10 l := by
  induction l generalizing a with
  | nil => simp [Nat.ofDigits]
  | cons d t ih =>
    have hd : d < 10 := h d (List.mem_cons_self d t)
    have ht : ∀ x ∈ t, x < 10 := fun x hx => h x (List.mem_cons_of_mem d hx)
    simp only [List.reverse_cons, List.map_append, List.map_cons, List.map_nil,
      List.foldl_append, List.foldl_cons, List.foldl_nil, ih ht,
      digitVal_digitChar d hd, Nat.ofDigits_cons, List.length_cons]
    ring

theorem digitsVal_natChars (n : Nat) : digitsVal (natChars n) = n := by
  unfold natChars
  split
  · rename_i h
    subst h
    decide
  · have := foldl_digitChars (Nat.digits 10 n)
      (fun d hd => Nat.digits_lt_base (by norm_num) hd) 0
    simpa [digitsVal, Nat.ofDigits_digits] using this

theorem all_isDigit_natChars (n : Nat) :
    (natChars n).all (fun c => c.isDigit) = true := by
  rw [List.all_eq_true]
  intro c hc
  obtain ⟨d, hd, rfl⟩ := mem_natChars n c hc
  exact isDigit_digitChar d hd

theorem goAtoi_natChars (n : Nat) : goAtoi (natChars n) = n := by
  obtain ⟨c, t, hct⟩ := List.exists_cons_of_ne_nil (natChars_ne_nil n)
  have hc : c ∈ natChars n := by rw [hct]; exact List.mem_cons_self c t
  obtain ⟨d, hd, hcd⟩ := mem_natChars n c hc
  have hdigits : goAtoiDigits (natChars n) = (n : Int) := by
    unfold goAtoiDigits
    rw [if_pos]
    · rw [digitsVal_natChars]
    · simp [natChars_ne_nil, all_isDigit_natChars]
  rw [hct, goAtoi, if_neg, if_neg, ← hct, hdigits]
  · rw [hcd]; exact ne_plus_digitChar d hd
  · rw [hcd]; exact ne_minus_digitChar d hd

theorem intChars_nonneg (v : Int) (hv : 0 ≤ v) : intChars v = natChars v.toNat := by
  unfold intChars
  rw [if_neg (not_lt.mpr hv)]

theorem goAtoi_intChars (v : Int) (hv : 0 ≤ v) : goAtoi (intChars v) = v := by
  rw [intChars_nonneg v hv, goAtoi_natChars, Int.toNat_of_nonneg hv]

/-! ### Trimming and splitting of well-formed `key=value` lines -/

theorem dropWhile_ws_eq_self (l : List Char) (h : ∀ c ∈ l, goIsSpace c = false) :
    l.dropWhile goIsSpace = l := by
  cases l with
  | nil => rfl
  | cons c t =>
    rw [List.dropWhile_cons, if_neg (by simp [h c (List.mem_cons_self c t)])]

theorem goTrimSpace_eq_self (l : List Char) (h : ∀ c ∈ l, goIsSpace c = false) :
    goTrimSpace l = l := by
  unfold goTrimSpace
  rw [dropWhile_ws_eq_self l h,
    dropWhile_ws_eq_self l.reverse (fun c hc => h c (List.mem_reverse.mp hc)),
    List.reverse_reverse]

theorem takeWhile_ne_eqsign (key ds : List Char) (h : ∀ c ∈ key, c ≠ '=') :
    (key ++ '=' :: ds).takeWhile (fun c => c ≠ '=') = key := by
  induction key with
  | nil => simp [List.takeWhile_cons]
  | cons c t ih =>
    rw [List.cons_append, List.takeWhile_cons,
      if_pos (by simp [h c (List.mem_cons_self c t)]),
      ih (fun x hx => h x (List.mem_cons_of_mem c hx))]

theorem dropWhile_ne_eqsign (key ds : List Char) (h : ∀ c ∈ key, c ≠ '=') :
    (key ++ '=' :: ds).dropWhile (fun c => c ≠ '=') = '=' :: ds := by
  induction key with
  | nil => simp [List.dropWhile_cons]
  | cons c t ih =>
    rw [List.cons_append, List.dropWhile_cons,
      if_pos (by simp [h c (List.mem_cons_self c t)]),
      ih (fun x hx => h x (List.mem_cons_of_mem c hx))]

theorem goSplitEq_append (key ds : List Char) (h : ∀ c ∈ key, c ≠ '=') :
    goSplitEq (key ++ '=' :: ds) = some (key, ds) := by
  unfold goSplitEq
  rw [List.span_eq_take_drop, takeWhile_ne_eqsign key ds h,
    dropWhile_ne_eqsign key ds h]

/-- Parsing a well-formed `key=value` line whose value renders a
non-negative integer: the line is dispatched on the key exactly as in
the `switch` of `loadState`. -/
theorem loadStateLine_dispatch (st : State) (key : List Char) (v : Int)
    (hv : 0 ≤ v) (hk0 : key ≠ [])
    (hkw : ∀ c ∈ key, goIsSpace c = false) (hke : ∀ c ∈ key, c ≠ '=') :
    loadStateLine st (key ++ '=' :: intChars v)
      = (if key = "iteration".data then { st with iteration := v }
        else if key = "max_iterations".data then { st with maxIterations := v }
        else if key = "current_step".data then { st with currentStep := v }
        else if key = "last_completed_workflow".data then
          { st with lastCompletedWorkflow := v }
        else if key = "last_completed_step".data then
          { st with lastCompletedWorkflow := v }
        else st) := by
  have hds : ∀ c ∈ intChars v, goIsSpace c = false ∧ c ≠ '=' := by
    intro c hc
    rw [intChars_nonneg v hv] at hc
    obtain ⟨d, hd, rfl⟩ := mem_natChars v.toNat c hc
    exact ⟨not_space_digitChar d hd, ne_eqsign_digitChar d hd⟩
  have hline : ∀ c ∈ key ++ '=' :: intChars v, goIsSpace c = false := by
    intro c hc
    rcases List.mem_append.mp hc with hc | hc
    · exact hkw c hc
    · rcases List.mem_cons.mp hc with rfl | hc
      · decide
      · exact (hds c hc).1
  unfold loadStateLine
  rw [goTrimSpace_eq_self _ hline, if_neg (by simp [hk0]),
    goSplitEq_append key (intChars v) hke]
  simp only [goTrimSpace_eq_self key hkw,
    goTrimSpace_eq_self (intChars v) (fun c hc => (hds c hc).1),
    goAtoi_intChars v hv]

/-- Claim C9: checkpoint persistence round-trips — for every `State`
with non-negative fields, writing with `saveState` and reading back
with `loadState` yields an equal `State`.  `loadState` also accepts
the legacy key `last_completed_step` as an alias of
`last_completed_workflow`, skips blank lines, lines without `'='`, and
unknown keys, maps a non-numeric value to 0 instead of failing, and
trims white space around keys and values. -/
theorem checkpoint_roundtrip :
    (∀ st : State,
      0 ≤ st.iteration → 0 ≤ st.maxIterations → 0 ≤ st.currentStep →
      0 ≤ st.lastCompletedWorkflow →
      loadStateLines (saveStateLines st) = st)
    ∧ loadStateLines ["last_completed_step=2".data] = ⟨0, 0, 0, 2⟩
    ∧ loadStateLines
        ["".data, "   ".data, "no equals sign here".data, "unknown_key=7".data,
         "iteration=abc".data, " max_iterations = 9 ".data] = ⟨0, 9, 0, 0⟩ := by
  refine ⟨?_, by decide, by decide⟩
  intro st h1 h2 h3 h4
  have key_eq : ∀ k ds : List Char, (k ++ ['=']) ++ ds = k ++ '=' :: ds := by
    intro k ds
    rw [List.append_assoc, List.singleton_append]
  have e1 : "iteration=".data ++ intChars st.iteration
      = "iteration".data ++ '=' :: intChars st.iteration := by
    rw [show "iteration=".data = "iteration".data ++ ['='] from by decide, key_eq]
  have e2 : "max_iterations=".data ++ intChars st.maxIterations
      = "max_iterations".data ++ '=' :: intChars st.maxIterations := by
    rw [show "max_iterations=".data = "max_iterations".data ++ ['='] from by decide,
      key_eq]
  have e3 : "current_step=".data ++ intChars st.currentStep
      = "current_step".data ++ '=' :: intChars st.currentStep := by
    rw [show "current_step=".data = "current_step".data ++ ['='] from by decide,
      key_eq]
  have e4 : "last_completed_workflow=".data ++ intChars st.lastCompletedWorkflow
      = "last_completed_workflow".data ++ '=' :: intChars st.lastCompletedWorkflow := by
    rw [show "last_completed_workflow=".data
        = "last_completed_workflow".data ++ ['='] from by decide, key_eq]
  unfold saveStateLines loadStateLines
  simp only [List.foldl_cons, List.foldl_nil]
  rw [e1, loadStateLine_dispatch _ _ _ h1 (by decide) (by decide) (by decide),
    if_pos rfl]
  rw [e2, loadStateLine_dispatch _ _ _ h2 (by decide) (by decide) (by decide),
    if_neg (by decide), if_pos rfl]
  rw [e3, loadStateLine_dispatch _ _ _ h3 (by decide) (by decide) (by decide),
    if_neg (by decide), if_neg (by decide), if_pos rfl]
  rw [e4, loadStateLine_dispatch _ _ _ h4 (by decide) (by decide) (by decide),
    if_neg (by decide), if_neg (by decide), if_neg (by decide), if_pos rfl]

/-- Witness for C9: the concrete checkpoint `⟨1, 3, 2, 1⟩` survives the
write/read round trip. -/
theorem checkpoint_roundtrip_witness :
    loadStateLines (saveStateLines ⟨1, 3, 2, 1⟩) = ⟨1, 3, 2, 1⟩ :=
  checkpoint_roundtrip.1 ⟨1, 3, 2, 1⟩ (by decide) (by decide) (by decide) (by decide)

/-! ### The ticket exchange sort -/

theorem innerPass_perm (x : Ticket) (t : List Ticket) :
    List.Perm ((innerPass x t).1 :: (innerPass x t).2) (x :: t) := by
  induction t generalizing x with
  | nil => exact List.Perm.refl _
  | cons y t ih =>
    by_cases h : y.priority < x.priority
    · simp only [innerPass, if_pos h]
      exact (List.Perm.swap x _ _).trans ((ih y).cons x)
    · simp only [innerPass, if_neg h]
      exact ((List.Perm.swap y _ _).trans ((ih x).cons y)).trans
        (List.Perm.swap x y t)

theorem innerPass_min (x : Ticket) (t : List Ticket) :
    ∀ z ∈ x :: t, (innerPass x t).1.priority ≤ z.priority := by
  induction t generalizing x with
  | nil =>
    intro z hz
    rcases List.mem_cons.mp hz with rfl | hz'
    · exact le_refl _
    · exact absurd hz' (List.not_mem_nil z)
  | cons y t ih =>
    intro z hz
    by_cases h : y.priority < x.priority
    · simp only [innerPass, if_pos h]
      rcases List.mem_cons.mp hz with rfl | hz'
      · exact le_trans (ih y y (List.mem_cons_self y t)) (le_of_lt h)
      · exact ih y z hz'
    · simp only [innerPass, if_neg h]
      rcases List.mem_cons.mp hz with rfl | hz'
      · exact ih z z (List.mem_cons_self z t)
      · rcases List.mem_cons.mp hz' with rfl | hz''
        · exact le_trans (ih x x (List.mem_cons_self x t)) (not_lt.mp h)
        · exact ih x z (List.mem_cons_of_mem x hz'')

theorem sortTickets_perm (l : List Ticket) : List.Perm (sortTickets l) l := by
  induction l using sortTickets.induct with
  | case1 => simp [sortTickets.eq_def]
  | case2 x t ih =>
    rw [sortTickets.eq_def]
    exact (ih.cons _).trans (innerPass_perm x t)

theorem sortTickets_sorted (l : List Ticket) :
    (sortTickets l).Pairwise (fun a b => a.priority ≤ b.priority) := by
  induction l using sortTickets.induct with
  | case1 => simp [sortTickets.eq_def]
  | case2 x t ih =>
    rw [sortTickets.eq_def]
    refine List.Pairwise.cons ?_ ih
    intro z hz
    have hz2 : z ∈ (innerPass x t).2 := (sortTickets_perm _).mem_iff.mp hz
    have hzxt : z ∈ x :: t :=
      (innerPass_perm x t).mem_iff.mp (List.mem_cons_of_mem _ hz2)
    exact innerPass_min x t z hzxt

/-- Claim C10: `fetchTodoTickets` returns tickets ordered by
non-decreasing numeric priority (the exchange sort both sorts and
permutes), selection always takes the first element, and because the
tracker encodes "No priority" as 0, a ticket with no priority set is
selected ahead of every prioritized ticket, including Urgent
(priority 1): whenever a priority-0 ticket is present among tickets
with non-negative priorities, the selected ticket has priority 0 and
strictly precedes every prioritized one. -/
theorem ticket_priority_selection :
    (∀ l : List Ticket,
      (sortTickets l).Pairwise (fun a b => a.priority ≤ b.priority)
      ∧ List.Perm (sortTickets l) l
      ∧ selectTicket l = (sortTickets l).head?)
    ∧ (∀ (l : List Ticket) (t0 : Ticket), t0 ∈ l → t0.priority = 0 →
      (∀ t ∈ l, 0 ≤ t.priority) →
      ∃ sel, selectTicket l = some sel ∧ sel.priority = 0
        ∧ ∀ t ∈ l, 1 ≤ t.priority → sel.priority < t.priority) := by
  constructor
  · intro l
    exact ⟨sortTickets_sorted l, sortTickets_perm l, rfl⟩
  · intro l t0 ht0 hp0 hnn
    cases hl : sortTickets l with
    | nil =>
      exact absurd (((sortTickets_perm l).symm.mem_iff.mp ht0))
        (by rw [hl]; exact List.not_mem_nil t0)
    | cons sel rest =>
      refine ⟨sel, by simp [selectTicket, hl], ?_, ?_⟩
      · have hsel_mem : sel ∈ l :=
          (sortTickets_perm l).mem_iff.mp (by rw [hl]; exact List.mem_cons_self sel rest)
        have hle : sel.priority ≤ t0.priority := by
          have ht0' : t0 ∈ sortTickets l := (sortTickets_perm l).symm.mem_iff.mp ht0
          rw [hl] at ht0'
          rcases List.mem_cons.mp ht0' with rfl | ht0''
          · exact le_refl _
          · have := sortTickets_sorted l
            rw [hl] at this
            exact List.rel_of_pairwise_cons this ht0''
        have hge : 0 ≤ sel.priority := hnn sel hsel_mem
        omega
      · intro t ht h1
        have hsel_mem : sel ∈ l :=
          (sortTickets_perm l).mem_iff.mp (by rw [hl]; exact List.mem_cons_self sel rest)
        have hle : sel.priority ≤ t0.priority := by
          have ht0' : t0 ∈ sortTickets l := (sortTickets_perm l).symm.mem_iff.mp ht0
          rw [hl] at ht0'
          rcases List.mem_cons.mp ht0' with rfl | ht0''
          · exact le_refl _
          · have := sortTickets_sorted l
            rw [hl] at this
            exact List.rel_of_pairwise_cons this ht0''
        have hge : 0 ≤ sel.priority := hnn sel hsel_mem
        omega

/-- Witness for C10: with an urgent ticket (priority 1), a no-priority
ticket (priority 0) and a medium ticket (priority 3) in the Todo
queue, the no-priority ticket is selected. -/
theorem ticket_priority_selection_witness :
    ∃ sel, selectTicket [⟨1, 0⟩, ⟨0, 1⟩, ⟨3, 2⟩] = some sel ∧ sel.priority = 0
      ∧ ∀ t ∈ [(⟨1, 0⟩ : Ticket), ⟨0, 1⟩, ⟨3, 2⟩], 1 ≤ t.priority →
          sel.priority < t.priority :=
  ticket_priority_selection.2 [⟨1, 0⟩, ⟨0, 1⟩, ⟨3, 2⟩] ⟨0, 1⟩
    (by decide) rfl (by decide)

/-! ### Manager-mode ticket lifecycle -/

theorem stateWrites_progress (n : Nat) : stateWrites (progressComments n) = [] := by
  simp [stateWrites, progressComments, List.filterMap_map]

theorem hasEscalation_progress (n : Nat) :
    hasEscalation (progressComments n) = false := by
  simp [hasEscalation, progressComments, List.any_map]

theorem stateWrites_append (l1 l2 : List TW) :
    stateWrites (l1 ++ l2) = stateWrites l1 ++ stateWrites l2 := by
  simp [stateWrites]

theorem hasEscalation_append (l1 l2 : List TW) :
    hasEscalation (l1 ++ l2) = (hasEscalation l1 || hasEscalation l2) := by
  simp [hasEscalation]

/-- Claim C8: in manager mode, a ticket that completes successfully
produces exactly the write sequence branch-comment, manager-state
save, `InProgress`, the per-iteration progress comments, the success
comment, `Done`, and the manager-state clear — its ticket-state writes
are exactly `[InProgress, Done]` with no dangling `InProgress`.  For a
workflow error or for iteration-limit exhaustion the ticket-state
writes end in a revert to `Todo` and an escalation comment is posted.
A PR-creation failure alone does not revert the ticket: the pass still
returns success and the state writes are still `[InProgress, Done]`,
with the failure surfaced as a warning comment. -/
theorem ticket_lifecycle :
    (∀ (n : Nat) (prOk : Bool),
      managerTicket ⟨true, n, .ok true, prOk⟩
        = (.ok (), [TW.comment .branchInfo, .saveMgr, .setState .inProgress]
            ++ progressComments n
            ++ (if prOk then [] else [.comment .prFailWarn])
            ++ [.comment .success, .setState .done, .clearMgr])
      ∧ stateWrites (managerTicket ⟨true, n, .ok true, prOk⟩).2
          = [.inProgress, .done])
    ∧ (∀ n : Nat,
      managerTicket ⟨true, n, .error (), true⟩
        = (.error (), [TW.comment .branchInfo, .saveMgr, .setState .inProgress]
            ++ progressComments n
            ++ [.comment .escalateError, .setState .todo, .clearMgr])
      ∧ stateWrites (managerTicket ⟨true, n, .error (), true⟩).2
          = [.inProgress, .todo]
      ∧ hasEscalation (managerTicket ⟨true, n, .error (), true⟩).2 = true)
    ∧ (∀ n : Nat,
      managerTicket ⟨true, n, .ok false, true⟩
        = (.error (), [TW.comment .branchInfo, .saveMgr, .setState .inProgress]
            ++ progressComments n
            ++ [.comment .escalateLimit, .setState .todo, .clearMgr])
      ∧ stateWrites (managerTicket ⟨true, n, .ok false, true⟩).2
          = [.inProgress, .todo]
      ∧ hasEscalation (managerTicket ⟨true, n, .ok false, true⟩).2 = true)
    ∧ (∀ n : Nat,
      (managerTicket ⟨true, n, .ok true, false⟩).1 = .ok ()
      ∧ TW.comment .prFailWarn ∈ (managerTicket ⟨true, n, .ok true, false⟩).2
      ∧ stateWrites (managerTicket ⟨true, n, .ok true, false⟩).2
          = [.inProgress, .done]) := by
  refine ⟨?_, ?_, ?_, ?_⟩
  · intro n prOk
    refine ⟨rfl, ?_⟩
    show stateWrites ([TW.comment .branchInfo, .saveMgr, .setState .inProgress]
      ++ progressComments n
      ++ (if prOk then [] else [.comment .prFailWarn])
      ++ [.comment .success, .setState .done, .clearMgr]) = [.inProgress, .done]
    simp only [stateWrites_append, stateWrites_progress]
    by_cases hpr : prOk = true <;> simp only [hpr] <;> decide
  · intro n
    refine ⟨rfl, ?_, ?_⟩
    · show stateWrites ([TW.comment .branchInfo, .saveMgr, .setState .inProgress]
        ++ progressComments n
        ++ [.comment .escalateError, .setState .todo, .clearMgr])
          = [.inProgress, .todo]
      simp only [stateWrites_append, stateWrites_progress]
      decide
    · show hasEscalation ([TW.comment .branchInfo, .saveMgr, .setState .inProgress]
        ++ progressComments n
        ++ [.comment .escalateError, .setState .todo, .clearMgr]) = true
      simp only [hasEscalation_append, hasEscalation_progress]
      decide
  · intro n
    refine ⟨rfl, ?_, ?_⟩
    · show stateWrites ([TW.comment .branchInfo, .saveMgr, .setState .inProgress]
        ++ progressComments n
        ++ [.comment .escalateLimit, .setState .todo, .clearMgr])
          = [.inProgress, .todo]
      simp only [stateWrites_append, stateWrites_progress]
      decide
    · show hasEscalation ([TW.comment .branchInfo, .saveMgr, .setState .inProgress]
        ++ progressComments n
        ++ [.comment .escalateLimit, .setState .todo, .clearMgr]) = true
      simp only [hasEscalation_append, hasEscalation_progress]
      decide
  · intro n
    refine ⟨rfl, ?_, ?_⟩
    · show TW.comment .prFailWarn ∈
        ([TW.comment .branchInfo, .saveMgr, .setState .inProgress]
          ++ progressComments n
          ++ (if false then [] else [TW.comment .prFailWarn])
          ++ [.comment .success, .setState .done, .clearMgr])
      simp
    · show stateWrites ([TW.comment .branchInfo, .saveMgr, .setState .inProgress]
        ++ progressComments n
        ++ (if false then [] else [TW.comment .prFailWarn])
        ++ [.comment .success, .setState .done, .clearMgr]) = [.inProgress, .done]
      simp only [stateWrites_append, stateWrites_progress, if_neg Bool.false_ne_true]
      decide

/-- Witness for C8: one ticket with two progress comments, successful
run and successful PR creation: state writes are exactly
`[InProgress, Done]`. -/
theorem ticket_lifecycle_witness :
    stateWrites (managerTicket ⟨true, 2, .ok true, true⟩).2
      = [.inProgress, .done] :=
  (ticket_lifecycle.1 2 true).2

end Ralph
